import Mathlib

/-!
Shallow embedding of `libs/langchain-qdrant/dist/vectorstores.js`
(class `QdrantVectorStore`), together with theorems about the claims
of the specification.

Modelling conventions:
* JavaScript numbers are never computed on by the adapter (vector
  components, scores and the MMR lambda are only passed through to the
  remote service or to external utility functions), so they are
  modelled by the exact type `Int`.
* The remote Qdrant client is modelled by a trace: every method returns
  the ordered list of remote calls it issues (`RemoteCall`), and the
  remote service's collection listing is threaded through as
  `ClientState`.  Replies of the remote service (search hits) are inputs
  of the corresponding functions.
* JavaScript truthiness is modelled faithfully where the source relies
  on it: an array is truthy even when empty (`if (ids)`, `if (!query)`
  on a vector), a string is falsy exactly when it is empty, `null` and
  `undefined` are falsy (`Option.none` here).
-/

/-- JavaScript numbers as handled by the adapter: never computed on,
only passed through, hence modelled exactly. -/
abbrev JsNum := Int

/-- An embedding vector (`number[]` in the source). -/
abbrev Vec := List JsNum

/-- A Qdrant filter object; opaque to the adapter (passed through
verbatim to the client), hence modelled as an opaque token. -/
abbrev QdrantFilter := String

/-- A value stored under a payload key of a point.  `undef` is
JavaScript's `undefined`; `record` is an open key/value object (a
document's metadata object or one entry of `customPayload`). -/
inductive PayloadValue where
  | undef : PayloadValue
  | str : String → PayloadValue
  | record : List (String × String) → PayloadValue
deriving DecidableEq

/-- A framework `Document` as the adapter reads it when writing:
optional identifier, text content, open metadata mapping. -/
structure Document where
  id : Option String
  pageContent : String
  metadata : List (String × String)
deriving DecidableEq

/-- A stored point as built by `addVectors`: identifier, vector and
payload object (association list in JavaScript insertion order). -/
structure Point where
  id : String
  vector : Vec
  payload : List (String × PayloadValue)
deriving DecidableEq

/-- A collection configuration (`createCollection` body): the adapter
either forwards the caller's configuration or builds
`{ vectors: { size, distance: "Cosine" } }`, so only those fields are
modelled. -/
structure CollectionConfig where
  size : Nat
  distance : String
deriving DecidableEq

/-- One remote call issued through the Qdrant client, with the
arguments the source passes (`vectorstores.js` lines 109, 131, 139,
163, 201, 225, 234). -/
inductive RemoteCall where
  | getCollections : RemoteCall
  | createCollection (collectionName : String) (config : CollectionConfig) : RemoteCall
  | upsert (collectionName : String) (wait : Bool) (points : List Point) : RemoteCall
  | deletePoints (collectionName : String) (wait : Bool) (ordering : String)
      (points : List String) : RemoteCall
  | deleteFilter (collectionName : String) (wait : Bool) (ordering : String)
      (filter : QdrantFilter) : RemoteCall
  | search (collectionName : String) (vector : Vec) (limit : Option Nat)
      (filter : Option QdrantFilter) (withPayload : List String)
      (withVector : Bool) : RemoteCall
deriving DecidableEq

/-- The client handle stored on the adapter: either the caller-supplied
`args.client` (opaque) or a `new QdrantClient({ url, apiKey })`. -/
inductive ClientHandle where
  | supplied (handle : String) : ClientHandle
  | constructed (url : Option String) (apiKey : Option String) : ClientHandle
deriving DecidableEq

/-- The remote service's state the adapter can observe: the names
returned by `getCollections`.  `createCollection` registers the new
name in this listing (behaviour of the remote service needed to state
idempotence of `ensureCollection`). -/
structure ClientState where
  collections : List String
deriving DecidableEq

/-- The adapter (class `QdrantVectorStore`): configuration fields set
once by the constructor, plus the embeddings provider's query
embedding function (`this.embeddings.embedQuery`). -/
structure QdrantVectorStore where
  client : ClientHandle
  collectionName : String
  collectionConfig : Option CollectionConfig
  contentPayloadKey : String
  metadataPayloadKey : String
  embedQuery : String → Vec

/-- `const CONTENT_KEY = "content"` (line 7). -/
def CONTENT_KEY : String := "content"

/-- `const METADATA_KEY = "metadata"` (line 8). -/
def METADATA_KEY : String := "metadata"

/-- Chunking loop of `delete` (lines 128-136), fuelled: the source loop
`for (let i = 0; i < ids.length; i += batchSize)` takes
`slice(i, i + batchSize)` each round; with a positive batch size each
round consumes at least one element, so `xs.length` rounds of fuel
always suffice. -/
def chunkAux (batchSize : Nat) : Nat → List α → List (List α)
  | _, [] => []
  | 0, _ :: _ => []
  | fuel + 1, x :: xs =>
      (x :: xs).take batchSize :: chunkAux batchSize fuel ((x :: xs).drop batchSize)

/-- The list of `slice(i, i + batchSize)` batches the `delete` loop
iterates over. -/
def chunkList (batchSize : Nat) (xs : List α) : List (List α) :=
  chunkAux batchSize xs.length xs

/-- `QdrantVectorStore.delete` (lines 125-148).  `if (ids)` is true for
any array, including the empty one (arrays are truthy in JavaScript),
so `some []` enters the identifier branch and the loop issues no call;
the filter branch is reached only when `ids` is `undefined`. -/
def QdrantVectorStore.delete (store : QdrantVectorStore)
    (ids : Option (List String)) (filter : Option QdrantFilter) :
    Except String (List RemoteCall) :=
  match ids with
  | some idList =>
      Except.ok ((chunkList 1000 idList).map fun batchIds =>
        RemoteCall.deletePoints store.collectionName true "weak" batchIds)
  | none =>
      match filter with
      | some f =>
          Except.ok [RemoteCall.deleteFilter store.collectionName true "weak" f]
      | none => Except.error "Either ids or filter must be provided."

/-- A concrete adapter instance used by witnesses and counterexamples:
default collection name and payload keys, trivial embeddings
provider. -/
def store₀ : QdrantVectorStore where
  client := ClientHandle.supplied "client"
  collectionName := "documents"
  collectionConfig := none
  contentPayloadKey := CONTENT_KEY
  metadataPayloadKey := METADATA_KEY
  embedQuery := fun _ => []

theorem chunkAux_join (batchSize : Nat) (hb : 0 < batchSize) :
    ∀ (fuel : Nat) (xs : List α), xs.length ≤ fuel →
      (chunkAux batchSize fuel xs).flatten = xs := by
  intro fuel
  induction fuel with
  | zero =>
    intro xs hx
    have hnil : xs = [] := List.eq_nil_of_length_eq_zero (Nat.le_zero.mp hx)
    subst hnil
    rfl
  | succ n ih =>
    intro xs hx
    cases xs with
    | nil => rfl
    | cons x rest =>
      have hstep : chunkAux batchSize (n + 1) (x :: rest) =
          (x :: rest).take batchSize ::
            chunkAux batchSize n ((x :: rest).drop batchSize) := rfl
      have hlen : ((x :: rest).drop batchSize).length ≤ n := by
        rw [List.length_drop]
        simp only [List.length_cons] at hx ⊢
        omega
      rw [hstep, List.flatten_cons, ih _ hlen]
      exact List.take_append_drop batchSize (x :: rest)

theorem chunkAux_mem (batchSize : Nat) (hb : 0 < batchSize) :
    ∀ (fuel : Nat) (xs : List α), ∀ c ∈ chunkAux batchSize fuel xs,
      0 < c.length ∧ c.length ≤ batchSize := by
  intro fuel
  induction fuel with
  | zero =>
    intro xs c hc
    cases xs with
    | nil => simp [chunkAux] at hc
    | cons x rest => simp [chunkAux] at hc
  | succ n ih =>
    intro xs c hc
    cases xs with
    | nil => simp [chunkAux] at hc
    | cons x rest =>
      have hstep : chunkAux batchSize (n + 1) (x :: rest) =
          (x :: rest).take batchSize ::
            chunkAux batchSize n ((x :: rest).drop batchSize) := rfl
      rw [hstep] at hc
      rcases List.mem_cons.mp hc with h | h
      · subst h
        constructor
        · simp only [List.length_take, List.length_cons]
          omega
        · simp only [List.length_take]
          omega
      · exact ih _ c h

theorem chunkAux_ne_nil (batchSize fuel : Nat) (xs : List α)
    (hx : xs ≠ []) (hf : 0 < fuel) : chunkAux batchSize fuel xs ≠ [] := by
  cases fuel with
  | zero => omega
  | succ n =>
    cases xs with
    | nil => exact absurd rfl hx
    | cons x rest =>
      have hstep : chunkAux batchSize (n + 1) (x :: rest) =
          (x :: rest).take batchSize ::
            chunkAux batchSize n ((x :: rest).drop batchSize) := rfl
      rw [hstep]
      exact List.cons_ne_nil _ _

theorem chunkList_join (batchSize : Nat) (hb : 0 < batchSize) (xs : List α) :
    (chunkList batchSize xs).flatten = xs :=
  chunkAux_join batchSize hb xs.length xs le_rfl

theorem chunkList_mem (batchSize : Nat) (hb : 0 < batchSize) (xs : List α) :
    ∀ c ∈ chunkList batchSize xs, 0 < c.length ∧ c.length ≤ batchSize :=
  chunkAux_mem batchSize hb xs.length xs

theorem chunkList_ne_nil (batchSize : Nat) (xs : List α) (hx : xs ≠ []) :
    chunkList batchSize xs ≠ [] :=
  chunkAux_ne_nil batchSize xs.length xs hx (List.length_pos.mpr hx)

theorem chunkList_two_le (batchSize : Nat) (hb : 0 < batchSize) (xs : List α)
    (hlen : batchSize < xs.length) : 2 ≤ (chunkList batchSize xs).length := by
  cases xs with
  | nil => simp at hlen
  | cons x rest =>
    have hstep : chunkList batchSize (x :: rest) =
        (x :: rest).take batchSize ::
          chunkAux batchSize rest.length ((x :: rest).drop batchSize) := rfl
    have hd : (x :: rest).drop batchSize ≠ [] := by
      intro hnil
      have hlen2 := congrArg List.length hnil
      rw [List.length_drop] at hlen2
      simp only [List.length_cons, List.length_nil] at hlen2
      simp only [List.length_cons] at hlen
      omega
    have hf : 0 < rest.length := by
      simp only [List.length_cons] at hlen
      omega
    have hne := chunkAux_ne_nil batchSize rest.length ((x :: rest).drop batchSize) hd hf
    have hpos := List.length_pos.mpr hne
    rw [hstep]
    simp only [List.length_cons]
    omega

/-- C1 counterexample: calling `delete` with both a list of identifiers
and a filter does not fail — the identifier branch runs and a remote
delete call is issued (the filter is ignored). -/
theorem delete_both_provided_cex :
    ∃ calls, store₀.delete (some ["id1"]) (some "someFilter") = Except.ok calls ∧
      calls ≠ [] :=
  ⟨[RemoteCall.deletePoints "documents" true "weak" ["id1"]], rfl, by decide⟩

/-- C1 (amended): `delete` fails (before any remote call) exactly when
neither identifiers nor a filter are provided; when identifiers are
provided the chunked identifier deletes are issued even if a filter is
also given (identifiers take precedence and the filter is ignored);
when only a filter is provided a single filter delete is issued. -/
theorem delete_argument_dispatch (store : QdrantVectorStore)
    (ids : Option (List String)) (filter : Option QdrantFilter) :
    (ids = none → filter = none →
      store.delete ids filter = Except.error "Either ids or filter must be provided.")
    ∧ (∀ idList, ids = some idList →
        store.delete ids filter = Except.ok ((chunkList 1000 idList).map fun batchIds =>
          RemoteCall.deletePoints store.collectionName true "weak" batchIds))
    ∧ (∀ f, ids = none → filter = some f →
        store.delete ids filter =
          Except.ok [RemoteCall.deleteFilter store.collectionName true "weak" f]) := by
  refine ⟨fun h1 h2 => ?_, fun idList h => ?_, fun f h1 h2 => ?_⟩
  · rw [h1, h2]; rfl
  · rw [h]; rfl
  · rw [h1, h2]; rfl

theorem delete_argument_dispatch_witness :
    (store₀.delete none none = Except.error "Either ids or filter must be provided.")
    ∧ (store₀.delete (some ["a", "b"]) none =
        Except.ok ((chunkList 1000 ["a", "b"]).map fun batchIds =>
          RemoteCall.deletePoints "documents" true "weak" batchIds))
    ∧ (store₀.delete none (some "flt") =
        Except.ok [RemoteCall.deleteFilter "documents" true "weak" "flt"]) :=
  ⟨(delete_argument_dispatch store₀ none none).1 rfl rfl,
   (delete_argument_dispatch store₀ (some ["a", "b"]) none).2.1 ["a", "b"] rfl,
   (delete_argument_dispatch store₀ none (some "flt")).2.2 "flt" rfl rfl⟩

/-- C4: deleting a non-empty list of identifiers issues the chunked
remote delete calls in order, one call per batch of `slice(i, i+1000)`;
the batches concatenate back to the identifier list (each identifier
lies in exactly one batch), every batch is non-empty and has at most
1000 identifiers, at least one call is issued, and more than 1000
identifiers yield at least two calls. -/
theorem delete_ids_chunking (store : QdrantVectorStore) (ids : List String)
    (filter : Option QdrantFilter) (h : ids ≠ []) :
    store.delete (some ids) filter =
        Except.ok ((chunkList 1000 ids).map fun batchIds =>
          RemoteCall.deletePoints store.collectionName true "weak" batchIds)
      ∧ (chunkList 1000 ids).flatten = ids
      ∧ (∀ c ∈ chunkList 1000 ids, 0 < c.length ∧ c.length ≤ 1000)
      ∧ chunkList 1000 ids ≠ []
      ∧ (1000 < ids.length → 2 ≤ (chunkList 1000 ids).length) :=
  ⟨rfl, chunkList_join 1000 (by omega) ids, chunkList_mem 1000 (by omega) ids,
   chunkList_ne_nil 1000 ids h, fun hgt => chunkList_two_le 1000 (by omega) ids hgt⟩

theorem delete_ids_chunking_witness :
    ((List.replicate 1001 "x" : List String) ≠ [])
    ∧ (store₀.delete (some (List.replicate 1001 "x")) none =
        Except.ok ((chunkList 1000 (List.replicate 1001 "x")).map fun batchIds =>
          RemoteCall.deletePoints "documents" true "weak" batchIds)
      ∧ (chunkList 1000 (List.replicate 1001 "x")).flatten = List.replicate 1001 "x"
      ∧ (∀ c ∈ chunkList 1000 (List.replicate 1001 "x"), 0 < c.length ∧ c.length ≤ 1000)
      ∧ chunkList 1000 (List.replicate 1001 "x") ≠ []
      ∧ (1000 < (List.replicate 1001 "x" : List String).length →
          2 ≤ (chunkList 1000 (List.replicate 1001 "x")).length)) :=
  ⟨by decide,
   delete_ids_chunking store₀ (List.replicate 1001 "x") none (by decide)⟩

/-- C10: `delete` with an empty identifier list and no filter resolves
successfully (the array `[]` is truthy in JavaScript, so the identifier
branch runs), issuing no remote call and raising no error. -/
theorem delete_empty_ids_ok (store : QdrantVectorStore) :
    store.delete (some []) none = Except.ok [] := rfl

/-- `QdrantVectorStore.ensureCollection` (lines 224-236): list the
existing collections; if the target name is absent, create it with the
caller-supplied configuration or, by default, with the probe
embedding's length as vector size and cosine distance. -/
def QdrantVectorStore.ensureCollection (store : QdrantVectorStore)
    (st : ClientState) : ClientState × List RemoteCall :=
  if store.collectionName ∈ st.collections then
    (st, [RemoteCall.getCollections])
  else
    let config := store.collectionConfig.getD
      { size := (store.embedQuery "test").length, distance := "Cosine" }
    ({ collections := st.collections ++ [store.collectionName] },
     [RemoteCall.getCollections,
      RemoteCall.createCollection store.collectionName config])

/-- Whether a remote call is a `createCollection` call. -/
def RemoteCall.isCreate : RemoteCall → Bool
  | RemoteCall.createCollection _ _ => true
  | _ => false

/-- Whether a remote call is an `upsert` call. -/
def RemoteCall.isUpsert : RemoteCall → Bool
  | RemoteCall.upsert _ _ _ => true
  | _ => false

/-- `QdrantAddDocumentOptions` (`vectorstores.d.ts` lines 22-24). -/
structure QdrantAddDocumentOptions where
  customPayload : List (List (String × String))
deriving DecidableEq

/-- The value of `documentOptions?.customPayload[idx]` (line 105):
`undefined` when `documentOptions` is absent or the index is out of
range. -/
def customPayloadValue (documentOptions : Option QdrantAddDocumentOptions)
    (idx : Nat) : PayloadValue :=
  match documentOptions with
  | none => PayloadValue.undef
  | some opts =>
      match opts.customPayload.get? idx with
      | some c => PayloadValue.record c
      | none => PayloadValue.undef

/-- Adding a key to a JavaScript object literal: if the key is already
present, its value is overwritten in place; otherwise the key is
appended in insertion order. -/
def objSet (o : List (String × PayloadValue)) (k : String) (v : PayloadValue) :
    List (String × PayloadValue) :=
  if ∃ p ∈ o, p.1 = k then
    o.map fun p => if p.1 = k then (k, v) else p
  else o ++ [(k, v)]

/-- Reading a key of a JavaScript object (`res.payload[key]`):
`undefined` when the key is absent. -/
def objGet : List (String × PayloadValue) → String → PayloadValue
  | [], _ => PayloadValue.undef
  | p :: rest, k => if p.1 = k then p.2 else objGet rest k

/-- One stored point of `addVectors` (lines 99-107): identifier from
the document or freshly generated (`uuid()` modelled as a supply
`freshIds` indexed by position), the vector, and the payload object
literal with the configured content key, the configured metadata key
and the literal key `customPayload`. -/
def QdrantVectorStore.buildPoint (store : QdrantVectorStore)
    (freshIds : Nat → String) (documents : List Document)
    (documentOptions : Option QdrantAddDocumentOptions)
    (embedding : Vec) (idx : Nat) : Point :=
  let doc := (documents.get? idx).getD { id := none, pageContent := "", metadata := [] }
  { id := doc.id.getD (freshIds idx)
    vector := embedding
    payload :=
      objSet (objSet (objSet [] store.contentPayloadKey (PayloadValue.str doc.pageContent))
          store.metadataPayloadKey (PayloadValue.record doc.metadata))
        "customPayload" (customPayloadValue documentOptions idx) }

/-- The `points` array of `addVectors` (line 99):
`vectors.map((embedding, idx) => ...)`. -/
def addVectorsPoints (store : QdrantVectorStore) (freshIds : Nat → String)
    (vectors : List Vec) (documents : List Document)
    (documentOptions : Option QdrantAddDocumentOptions) : List Point :=
  vectors.enum.map fun p =>
    store.buildPoint freshIds documents documentOptions p.2 p.1

/-- `QdrantVectorStore.addVectors` (lines 94-119): return immediately
on an empty vectors array, otherwise ensure the collection and issue a
single batch upsert with `wait: true`.  (The catch-block only rewraps a
rejection of the remote upsert call itself; the call is still issued,
so the trace is unchanged by it.) -/
def QdrantVectorStore.addVectors (store : QdrantVectorStore)
    (freshIds : Nat → String) (vectors : List Vec) (documents : List Document)
    (documentOptions : Option QdrantAddDocumentOptions) (st : ClientState) :
    ClientState × List RemoteCall :=
  if vectors.length = 0 then (st, [])
  else
    let ec := store.ensureCollection st
    (ec.1, ec.2 ++ [RemoteCall.upsert store.collectionName true
      (addVectorsPoints store freshIds vectors documents documentOptions)])

theorem ensureCollection_mem (store : QdrantVectorStore) (st : ClientState)
    (h : store.collectionName ∈ st.collections) :
    store.ensureCollection st = (st, [RemoteCall.getCollections]) := by
  simp [QdrantVectorStore.ensureCollection, h]

theorem ensureCollection_not_mem (store : QdrantVectorStore) (st : ClientState)
    (h : store.collectionName ∉ st.collections) :
    store.ensureCollection st =
      ({ collections := st.collections ++ [store.collectionName] },
       [RemoteCall.getCollections,
        RemoteCall.createCollection store.collectionName
          (store.collectionConfig.getD
            { size := (store.embedQuery "test").length, distance := "Cosine" })]) := by
  simp [QdrantVectorStore.ensureCollection, h]

theorem ensureCollection_no_upsert (store : QdrantVectorStore) (st : ClientState) :
    ∀ c ∈ (store.ensureCollection st).2, c.isUpsert = false := by
  intro c hc
  by_cases h : store.collectionName ∈ st.collections
  · rw [ensureCollection_mem store st h] at hc
    simp only [List.mem_singleton] at hc
    subst hc
    rfl
  · rw [ensureCollection_not_mem store st h] at hc
    simp only [List.mem_cons, List.mem_singleton, List.not_mem_nil, or_false] at hc
    rcases hc with hc | hc <;> subst hc <;> rfl

theorem addVectors_eq (store : QdrantVectorStore) (freshIds : Nat → String)
    (vectors : List Vec) (documents : List Document)
    (opts : Option QdrantAddDocumentOptions) (st : ClientState)
    (h : vectors ≠ []) :
    store.addVectors freshIds vectors documents opts st =
      ((store.ensureCollection st).1,
       (store.ensureCollection st).2 ++
         [RemoteCall.upsert store.collectionName true
           (addVectorsPoints store freshIds vectors documents opts)]) := by
  simp only [QdrantVectorStore.addVectors]
  rw [if_neg fun hc => h (List.length_eq_zero.mp hc)]

theorem buildPoint_eq (store : QdrantVectorStore) (freshIds : Nat → String)
    (documents : List Document) (opts : Option QdrantAddDocumentOptions)
    (v : Vec) (idx : Nat) (d : Document) (hd : documents.get? idx = some d)
    (hk1 : store.contentPayloadKey ≠ store.metadataPayloadKey)
    (hk2 : store.contentPayloadKey ≠ "customPayload")
    (hk3 : store.metadataPayloadKey ≠ "customPayload") :
    store.buildPoint freshIds documents opts v idx =
      { id := d.id.getD (freshIds idx)
        vector := v
        payload := [(store.contentPayloadKey, PayloadValue.str d.pageContent),
                    (store.metadataPayloadKey, PayloadValue.record d.metadata),
                    ("customPayload", customPayloadValue opts idx)] } := by
  simp only [QdrantVectorStore.buildPoint, hd, Option.getD_some]
  simp [objSet, hk1, hk2, hk3]

theorem addVectorsPoints_get (store : QdrantVectorStore) (freshIds : Nat → String)
    (vectors : List Vec) (documents : List Document)
    (opts : Option QdrantAddDocumentOptions) (i : Nat) (v : Vec)
    (hv : vectors.get? i = some v) :
    (addVectorsPoints store freshIds vectors documents opts).get? i =
      some (store.buildPoint freshIds documents opts v i) := by
  simp only [addVectorsPoints, List.get?_map, List.get?_enum, hv, Option.map_some']

theorem addVectorsPoints_length (store : QdrantVectorStore) (freshIds : Nat → String)
    (vectors : List Vec) (documents : List Document)
    (opts : Option QdrantAddDocumentOptions) :
    (addVectorsPoints store freshIds vectors documents opts).length = vectors.length := by
  simp [addVectorsPoints, List.enum_length]

theorem addVectors_single_upsert (store : QdrantVectorStore) (freshIds : Nat → String)
    (vectors : List Vec) (documents : List Document)
    (opts : Option QdrantAddDocumentOptions) (st : ClientState)
    (h : vectors ≠ []) :
    ((store.addVectors freshIds vectors documents opts st).2).filter
        (fun c => c.isUpsert) =
      [RemoteCall.upsert store.collectionName true
        (addVectorsPoints store freshIds vectors documents opts)] := by
  rw [addVectors_eq store freshIds vectors documents opts st h]
  rw [List.filter_append]
  rw [List.filter_eq_nil.mpr]
  · rfl
  · intro c hc
    simp [ensureCollection_no_upsert store st c hc]

/-- C8: `addVectors` with an empty vectors array returns immediately:
no collection listing, no collection creation, no upsert, no error
(line 95-97; the only failure path in the method is the rewrap of a
rejected remote upsert call, which is never reached). -/
theorem addVectors_empty_noop (store : QdrantVectorStore) (freshIds : Nat → String)
    (documents : List Document) (documentOptions : Option QdrantAddDocumentOptions)
    (st : ClientState) :
    store.addVectors freshIds [] documents documentOptions st = (st, []) := rfl

/-- C6: `ensureCollection` lists the collections and creates the target
only when its name is absent from the listing, using the
caller-supplied configuration when given and otherwise a default whose
vector size is the probe embedding's length and whose distance is
cosine; on an already-listed target it only lists; called twice on a
fresh target it issues exactly one create overall and the second call
leaves the state unchanged. -/
theorem ensureCollection_idempotent (store : QdrantVectorStore) (st : ClientState) :
    (store.collectionName ∈ st.collections →
      store.ensureCollection st = (st, [RemoteCall.getCollections]))
    ∧ (store.collectionName ∉ st.collections →
      store.ensureCollection st =
        ({ collections := st.collections ++ [store.collectionName] },
         [RemoteCall.getCollections,
          RemoteCall.createCollection store.collectionName
            (store.collectionConfig.getD
              { size := (store.embedQuery "test").length, distance := "Cosine" })]))
    ∧ (store.collectionName ∉ st.collections →
      ((store.ensureCollection st).2 ++
          (store.ensureCollection (store.ensureCollection st).1).2).countP
        (fun c => c.isCreate) = 1
      ∧ (store.ensureCollection (store.ensureCollection st).1).1 =
          (store.ensureCollection st).1) := by
  refine ⟨ensureCollection_mem store st, ensureCollection_not_mem store st, fun h => ?_⟩
  have h1 := ensureCollection_not_mem store st h
  have hmem : store.collectionName ∈ (store.ensureCollection st).1.collections := by
    rw [h1]
    simp
  have h2 := ensureCollection_mem store (store.ensureCollection st).1 hmem
  refine ⟨?_, ?_⟩
  · rw [h2, h1]
    rfl
  · rw [h2]

theorem ensureCollection_idempotent_witness :
    (store₀.ensureCollection ⟨["documents"]⟩ = (⟨["documents"]⟩, [RemoteCall.getCollections]))
    ∧ (store₀.ensureCollection ⟨[]⟩ =
        (⟨["documents"]⟩,
         [RemoteCall.getCollections,
          RemoteCall.createCollection "documents" { size := 0, distance := "Cosine" }]))
    ∧ (((store₀.ensureCollection ⟨[]⟩).2 ++
          (store₀.ensureCollection (store₀.ensureCollection ⟨[]⟩).1).2).countP
        (fun c => c.isCreate) = 1
      ∧ (store₀.ensureCollection (store₀.ensureCollection ⟨[]⟩).1).1 =
          (store₀.ensureCollection ⟨[]⟩).1) :=
  ⟨(ensureCollection_idempotent store₀ ⟨["documents"]⟩).1 (by decide),
   (ensureCollection_idempotent store₀ ⟨[]⟩).2.1 (by decide),
   (ensureCollection_idempotent store₀ ⟨[]⟩).2.2 (by decide)⟩

/-- C3 counterexample: a stored point built by `addVectors` with no
extra payload supplied does not carry exactly the two configured
top-level keys — the literal key `customPayload` is always present as a
third top-level key (mapped to `undefined` here). -/
theorem addVectors_customPayload_key_cex :
    (addVectorsPoints store₀ (fun _ => "generated") [[]]
        [{ id := none, pageContent := "text", metadata := [] }] none).map Point.payload =
      [[("content", PayloadValue.str "text"),
        ("metadata", PayloadValue.record []),
        ("customPayload", PayloadValue.undef)]] := by decide

/-- C3 (amended): provided the configured content and metadata keys are
distinct from each other and from the literal `"customPayload"`, every
point upserted by `addVectors` carries exactly three top-level payload
keys, in insertion order: the configured content key mapping to the
document's text content, the configured metadata key mapping to the
document's metadata, and the literal key `customPayload` mapping to the
per-document extra payload when supplied and to `undefined` otherwise —
so a third top-level key is present even when no extra payload was
supplied. -/
theorem addVectors_payload_exact_keys (store : QdrantVectorStore)
    (freshIds : Nat → String) (vectors : List Vec) (documents : List Document)
    (opts : Option QdrantAddDocumentOptions) (st : ClientState)
    (hpos : vectors ≠ [])
    (hk1 : store.contentPayloadKey ≠ store.metadataPayloadKey)
    (hk2 : store.contentPayloadKey ≠ "customPayload")
    (hk3 : store.metadataPayloadKey ≠ "customPayload") :
    ∃ pts, ((store.addVectors freshIds vectors documents opts st).2).filter
          (fun c => c.isUpsert) = [RemoteCall.upsert store.collectionName true pts]
      ∧ ∀ i v d, vectors.get? i = some v → documents.get? i = some d →
          ∃ pt, pts.get? i = some pt
            ∧ pt.payload.map Prod.fst =
                [store.contentPayloadKey, store.metadataPayloadKey, "customPayload"]
            ∧ objGet pt.payload store.contentPayloadKey = PayloadValue.str d.pageContent
            ∧ objGet pt.payload store.metadataPayloadKey = PayloadValue.record d.metadata
            ∧ objGet pt.payload "customPayload" = customPayloadValue opts i
            ∧ (opts = none → objGet pt.payload "customPayload" = PayloadValue.undef) := by
  refine ⟨addVectorsPoints store freshIds vectors documents opts,
    addVectors_single_upsert store freshIds vectors documents opts st hpos, ?_⟩
  intro i v d hv hd
  refine ⟨store.buildPoint freshIds documents opts v i,
    addVectorsPoints_get store freshIds vectors documents opts i v hv, ?_, ?_, ?_, ?_, ?_⟩
  · rw [buildPoint_eq store freshIds documents opts v i d hd hk1 hk2 hk3]
    simp
  · rw [buildPoint_eq store freshIds documents opts v i d hd hk1 hk2 hk3]
    simp [objGet]
  · rw [buildPoint_eq store freshIds documents opts v i d hd hk1 hk2 hk3]
    simp [objGet, hk1]
  · rw [buildPoint_eq store freshIds documents opts v i d hd hk1 hk2 hk3]
    simp [objGet, hk2, hk3]
  · intro ho
    rw [buildPoint_eq store freshIds documents opts v i d hd hk1 hk2 hk3, ho]
    simp [objGet, hk2, hk3, customPayloadValue]

theorem addVectors_payload_exact_keys_witness :
    (([[]] : List Vec) ≠ [])
    ∧ ∃ pts, ((store₀.addVectors (fun _ => "gen") [[]]
          ([{ id := none, pageContent := "text", metadata := [("m", "v")] }] : List Document)
          (some ({ customPayload := [[("k", "v")]] } : QdrantAddDocumentOptions)) ⟨[]⟩).2).filter
          (fun c => c.isUpsert) = [RemoteCall.upsert "documents" true pts]
      ∧ ∀ i v d, ([[]] : List Vec).get? i = some v →
          ([{ id := none, pageContent := "text", metadata := [("m", "v")] }] :
            List Document).get? i = some d →
          ∃ pt, pts.get? i = some pt
            ∧ pt.payload.map Prod.fst = ["content", "metadata", "customPayload"]
            ∧ objGet pt.payload "content" = PayloadValue.str d.pageContent
            ∧ objGet pt.payload "metadata" = PayloadValue.record d.metadata
            ∧ objGet pt.payload "customPayload" =
                customPayloadValue
                  (some ({ customPayload := [[("k", "v")]] } : QdrantAddDocumentOptions)) i
            ∧ ((some ({ customPayload := [[("k", "v")]] } : QdrantAddDocumentOptions) :
                  Option QdrantAddDocumentOptions) = none →
                objGet pt.payload "customPayload" = PayloadValue.undef) :=
  ⟨by decide,
   addVectors_payload_exact_keys store₀ (fun _ => "gen") [[]]
     ([{ id := none, pageContent := "text", metadata := [("m", "v")] }] : List Document)
     (some ({ customPayload := [[("k", "v")]] } : QdrantAddDocumentOptions)) ⟨[]⟩
     (by decide) (by decide) (by decide) (by decide)⟩

/-- C5: `addVectors` with N vectors and N documents (N > 0, distinct
configured payload keys) issues exactly one batch upsert containing
exactly N points; the i-th point carries the i-th input vector, a
payload whose configured content and metadata keys are taken from the
i-th document, and the i-th document's identifier when present and the
i-th freshly generated identifier otherwise; generated identifiers of
distinct identifier-less documents are distinct whenever the generator
is injective. -/
theorem addVectors_builds_points (store : QdrantVectorStore)
    (freshIds : Nat → String) (vectors : List Vec) (documents : List Document)
    (opts : Option QdrantAddDocumentOptions) (st : ClientState)
    (_hN : vectors.length = documents.length) (hpos : vectors ≠ [])
    (hk1 : store.contentPayloadKey ≠ store.metadataPayloadKey)
    (hk2 : store.contentPayloadKey ≠ "customPayload")
    (hk3 : store.metadataPayloadKey ≠ "customPayload") :
    ∃ pts,
      ((store.addVectors freshIds vectors documents opts st).2).filter
          (fun c => c.isUpsert) = [RemoteCall.upsert store.collectionName true pts]
      ∧ pts.length = vectors.length
      ∧ (∀ i v d, vectors.get? i = some v → documents.get? i = some d →
          pts.get? i = some
            { id := d.id.getD (freshIds i)
              vector := v
              payload := [(store.contentPayloadKey, PayloadValue.str d.pageContent),
                          (store.metadataPayloadKey, PayloadValue.record d.metadata),
                          ("customPayload", customPayloadValue opts i)] })
      ∧ (Function.Injective freshIds →
          ∀ i j di dj, documents.get? i = some di → documents.get? j = some dj →
            di.id = none → dj.id = none → i ≠ j →
            ∀ pi pj, pts.get? i = some pi → pts.get? j = some pj →
              pi.id ≠ pj.id) := by
  have hget : ∀ i v d, vectors.get? i = some v → documents.get? i = some d →
      (addVectorsPoints store freshIds vectors documents opts).get? i = some
        { id := d.id.getD (freshIds i)
          vector := v
          payload := [(store.contentPayloadKey, PayloadValue.str d.pageContent),
                      (store.metadataPayloadKey, PayloadValue.record d.metadata),
                      ("customPayload", customPayloadValue opts i)] } := by
    intro i v d hv hd
    rw [addVectorsPoints_get store freshIds vectors documents opts i v hv,
      buildPoint_eq store freshIds documents opts v i d hd hk1 hk2 hk3]
  refine ⟨addVectorsPoints store freshIds vectors documents opts,
    addVectors_single_upsert store freshIds vectors documents opts st hpos,
    addVectorsPoints_length store freshIds vectors documents opts,
    hget, ?_⟩
  intro hinj i j di dj hdi hdj hdi0 hdj0 hij pi pj hpi hpj
  have hiv : ∃ v, vectors.get? i = some v := by
    obtain ⟨hlt, -⟩ := List.get?_eq_some.mp hpi
    rw [addVectorsPoints_length store freshIds vectors documents opts] at hlt
    exact ⟨_, List.get?_eq_get hlt⟩
  have hjv : ∃ v, vectors.get? j = some v := by
    obtain ⟨hlt, -⟩ := List.get?_eq_some.mp hpj
    rw [addVectorsPoints_length store freshIds vectors documents opts] at hlt
    exact ⟨_, List.get?_eq_get hlt⟩
  obtain ⟨vi, hvi⟩ := hiv
  obtain ⟨vj, hvj⟩ := hjv
  have hpi2 := hget i vi di hvi hdi
  have hpj2 := hget j vj dj hvj hdj
  rw [hpi] at hpi2
  rw [hpj] at hpj2
  have hpi3 : pi.id = freshIds i := by
    rw [Option.some_inj.mp hpi2, hdi0]
    rfl
  have hpj3 : pj.id = freshIds j := by
    rw [Option.some_inj.mp hpj2, hdj0]
    rfl
  rw [hpi3, hpj3]
  exact fun hc => hij (hinj hc)

theorem addVectors_builds_points_witness :
    (([[1], [2]] : List Vec).length =
        ([{ id := some "docA", pageContent := "tA", metadata := [] },
          { id := none, pageContent := "tB", metadata := [] }] : List Document).length)
    ∧ (([[1], [2]] : List Vec) ≠ [])
    ∧ ∃ pts,
      ((store₀.addVectors (fun _ => "gen") [[1], [2]]
          ([{ id := some "docA", pageContent := "tA", metadata := [] },
            { id := none, pageContent := "tB", metadata := [] }] : List Document)
          none ⟨[]⟩).2).filter (fun c => c.isUpsert) =
        [RemoteCall.upsert "documents" true pts]
      ∧ pts.length = ([[1], [2]] : List Vec).length
      ∧ (∀ i v d, ([[1], [2]] : List Vec).get? i = some v →
          ([{ id := some "docA", pageContent := "tA", metadata := [] },
            { id := none, pageContent := "tB", metadata := [] }] :
              List Document).get? i = some d →
          pts.get? i = some
            { id := d.id.getD "gen"
              vector := v
              payload := [("content", PayloadValue.str d.pageContent),
                          ("metadata", PayloadValue.record d.metadata),
                          ("customPayload", customPayloadValue none i)] })
      ∧ (Function.Injective (fun _ : Nat => "gen") →
          ∀ i j di dj,
            ([{ id := some "docA", pageContent := "tA", metadata := [] },
              { id := none, pageContent := "tB", metadata := [] }] :
                List Document).get? i = some di →
            ([{ id := some "docA", pageContent := "tA", metadata := [] },
              { id := none, pageContent := "tB", metadata := [] }] :
                List Document).get? j = some dj →
            di.id = none → dj.id = none → i ≠ j →
            ∀ pi pj, pts.get? i = some pi → pts.get? j = some pj →
              pi.id ≠ pj.id) :=
  ⟨by decide, by decide,
   addVectors_builds_points store₀ (fun _ => "gen") [[1], [2]]
     ([{ id := some "docA", pageContent := "tA", metadata := [] },
       { id := none, pageContent := "tB", metadata := [] }] : List Document)
     none ⟨[]⟩ (by decide) (by decide) (by decide) (by decide) (by decide)⟩

/-- One hit returned by the remote search call: identifier, vector
(as requested via `with_vector`), payload fields and score. -/
structure ScoredPoint where
  id : String
  vector : Vec
  payload : List (String × PayloadValue)
  score : JsNum
deriving DecidableEq

/-- A `Document` as reconstructed from a search hit (lines 170-178 and
211-216): `new Document({ id, metadata: res.payload[k1], pageContent:
res.payload[k2] })`.  The payload reads are untyped in the source and
yield `undefined` when the field is absent, hence `PayloadValue`
fields here. -/
structure RetrievedDoc where
  id : String
  pageContent : PayloadValue
  metadata : PayloadValue
deriving DecidableEq

/-- Reconstruction of a document from one search hit. -/
def QdrantVectorStore.toRetrievedDoc (store : QdrantVectorStore)
    (res : ScoredPoint) : RetrievedDoc :=
  { id := res.id
    metadata := objGet res.payload store.metadataPayloadKey
    pageContent := objGet res.payload store.contentPayloadKey }

/-- `QdrantVectorStore.similaritySearchVectorWithScore` (lines
158-180).  The source guard `if (!query) return []` fires only for
`undefined`/`null` (`none` here): a JavaScript array, even the empty
one, is truthy, so `some []` proceeds to the remote search.
`response` is the remote service's reply to the issued search call;
the function returns the mapped (document, score) pairs, the state
after `ensureCollection`, and the trace of issued remote calls. -/
def QdrantVectorStore.similaritySearchVectorWithScore
    (store : QdrantVectorStore) (query : Option Vec) (k : Option Nat)
    (filter : Option QdrantFilter) (st : ClientState)
    (response : List ScoredPoint) :
    List (RetrievedDoc × JsNum) × ClientState × List RemoteCall :=
  match query with
  | none => ([], st, [])
  | some q =>
      let ec := store.ensureCollection st
      (response.map fun res => (store.toRetrievedDoc res, res.score),
       ec.1,
       ec.2 ++ [RemoteCall.search store.collectionName q k filter
         [store.metadataPayloadKey, store.contentPayloadKey] false])

/-- C2 counterexample: a present but empty query vector does not
short-circuit — the remote service is contacted (collection listing
and a search call are issued). -/
theorem similarity_empty_vector_cex :
    (store₀.similaritySearchVectorWithScore (some []) none none
        ⟨["documents"]⟩ []).2.2 ≠ [] := by decide

/-- C2 (amended): with an absent (`undefined`/`null`) query vector,
`similaritySearchVectorWithScore` returns the empty list and issues no
remote call (no collection listing or creation, no search); an empty
but present query vector instead proceeds like any other query. -/
theorem similarity_absent_query_noop (store : QdrantVectorStore)
    (k : Option Nat) (filter : Option QdrantFilter) (st : ClientState)
    (response : List ScoredPoint) :
    store.similaritySearchVectorWithScore none k filter st response =
      ([], st, []) := rfl

/-- `QdrantLibArgs` (`vectorstores.d.ts` lines 12-21); the client
handle is opaque. -/
structure QdrantLibArgs where
  client : Option String
  url : Option String
  apiKey : Option String
  collectionName : Option String
  collectionConfig : Option CollectionConfig
  customPayload : Option (List (List (String × String)))
  contentPayloadKey : Option String
  metadataPayloadKey : Option String
deriving DecidableEq

/-- The process environment variables the constructor may fall back
to. -/
structure Env where
  QDRANT_URL : Option String
  QDRANT_API_KEY : Option String
deriving DecidableEq

/-- JavaScript truthiness of an optional string: `undefined`, `null`
and the empty string are falsy. -/
def truthyStr : Option String → Bool
  | none => false
  | some s => !s.isEmpty

/-- `args.url ?? getEnvironmentVariable("QDRANT_URL")` (line 57):
nullish coalescing, so a present (even empty) argument shadows the
environment. -/
def resolvedUrl (args : QdrantLibArgs) (env : Env) : Option String :=
  match args.url with
  | some u => some u
  | none => env.QDRANT_URL

/-- `args.apiKey ?? getEnvironmentVariable("QDRANT_API_KEY")`
(line 58). -/
def resolvedApiKey (args : QdrantLibArgs) (env : Env) : Option String :=
  match args.apiKey with
  | some a => some a
  | none => env.QDRANT_API_KEY

/-- The constructor (lines 25-72): fails when no client handle is
given and the resolved URL is falsy; otherwise stores the supplied
client or a newly constructed one, and the collection name and payload
keys with their defaults.  No remote call is involved (`new
QdrantClient` only builds a handle). -/
def QdrantVectorStore.construct (env : Env) (embedQuery : String → Vec)
    (args : QdrantLibArgs) : Except String QdrantVectorStore :=
  if args.client = none ∧ truthyStr (resolvedUrl args env) = false then
    Except.error "Qdrant client or url address must be set."
  else
    Except.ok
      { client :=
          match args.client with
          | some c => ClientHandle.supplied c
          | none => ClientHandle.constructed (resolvedUrl args env) (resolvedApiKey args env)
        collectionName := args.collectionName.getD "documents"
        collectionConfig := args.collectionConfig
        contentPayloadKey := args.contentPayloadKey.getD CONTENT_KEY
        metadataPayloadKey := args.metadataPayloadKey.getD METADATA_KEY
        embedQuery := embedQuery }

/-- C7: construction fails with the configuration error exactly when no
client handle is supplied and no (truthy) connection URL is available,
either as an argument or via the environment fallback; when a client
or such a URL is available, construction succeeds and sets the
collection name and the payload key names to the supplied values or
their defaults (`"documents"`, `"content"`, `"metadata"`).  The
constructor issues no remote call either way. -/
theorem construct_validation (env : Env) (embedQuery : String → Vec)
    (args : QdrantLibArgs) :
    (args.client = none → truthyStr (resolvedUrl args env) = false →
      QdrantVectorStore.construct env embedQuery args =
        Except.error "Qdrant client or url address must be set.")
    ∧ (args.client ≠ none ∨ truthyStr (resolvedUrl args env) = true →
      QdrantVectorStore.construct env embedQuery args =
        Except.ok
          { client :=
              match args.client with
              | some c => ClientHandle.supplied c
              | none => ClientHandle.constructed (resolvedUrl args env)
                  (resolvedApiKey args env)
            collectionName := args.collectionName.getD "documents"
            collectionConfig := args.collectionConfig
            contentPayloadKey := args.contentPayloadKey.getD CONTENT_KEY
            metadataPayloadKey := args.metadataPayloadKey.getD METADATA_KEY
            embedQuery := embedQuery }) := by
  constructor
  · intro h1 h2
    simp only [QdrantVectorStore.construct]
    rw [if_pos ⟨h1, h2⟩]
  · intro h
    simp only [QdrantVectorStore.construct]
    rw [if_neg]
    rcases h with h | h
    · exact fun hc => h hc.1
    · intro hc
      rw [hc.2] at h
      exact Bool.false_ne_true h

theorem construct_validation_witness :
    (QdrantVectorStore.construct ⟨none, none⟩ (fun _ => [])
        ⟨none, none, none, none, none, none, none, none⟩ =
      Except.error "Qdrant client or url address must be set.")
    ∧ (QdrantVectorStore.construct ⟨none, none⟩ (fun _ => [])
        ⟨some "client", none, none, none, none, none, none, none⟩ =
      Except.ok
        { client := ClientHandle.supplied "client"
          collectionName := "documents"
          collectionConfig := none
          contentPayloadKey := "content"
          metadataPayloadKey := "metadata"
          embedQuery := fun _ => [] }) :=
  ⟨(construct_validation ⟨none, none⟩ (fun _ => [])
      ⟨none, none, none, none, none, none, none, none⟩).1 rfl rfl,
   (construct_validation ⟨none, none⟩ (fun _ => [])
      ⟨some "client", none, none, none, none, none, none, none⟩).2
     (Or.inl (by decide))⟩

/-- Options of `maxMarginalRelevanceSearch`
(`MaxMarginalRelevanceSearchOptions`): `k` is required in the source
(`options.k` is accessed without optional chaining), the rest is
optional. -/
structure MMROptions where
  k : Nat
  fetchK : Option Nat
  lambda : Option JsNum
  filter : Option QdrantFilter
deriving DecidableEq

/-- `QdrantVectorStore.maxMarginalRelevanceSearch` (lines 195-218).
The external diversity-selection function
(`maximalMarginalRelevance` from `@langchain/core/utils/math`) is an
import, modelled as the function argument `mmr`; it receives the query
embedding, the fetched vectors, the lambda and `k`, and returns the
chosen indices.  `response` is the remote reply to the issued search
call (requested with `with_vector: true` and limit `fetchK ?? 20`).
`results[idx]` on an out-of-range index makes the source throw
(reading `.payload` of `undefined`), modelled as `Except.error`. -/
def QdrantVectorStore.maxMarginalRelevanceSearch (store : QdrantVectorStore)
    (mmr : Vec → List Vec → Option JsNum → Nat → List Nat)
    (query : String) (options : MMROptions) (st : ClientState)
    (response : List ScoredPoint) :
    Except String (List RetrievedDoc) × ClientState × List RemoteCall :=
  if query = "" then (Except.ok [], st, [])
  else
    let queryEmbedding := store.embedQuery query
    let ec := store.ensureCollection st
    let mmrIndexes := mmr queryEmbedding (response.map ScoredPoint.vector)
      options.lambda options.k
    let result :=
      match mmrIndexes.mapM (fun idx => response.get? idx) with
      | some topMmrMatches => Except.ok (topMmrMatches.map store.toRetrievedDoc)
      | none => Except.error "index out of range"
    (result, ec.1,
     ec.2 ++ [RemoteCall.search store.collectionName queryEmbedding
       (some (options.fetchK.getD 20)) options.filter
       [store.metadataPayloadKey, store.contentPayloadKey] true])

theorem mapM_get?_of_valid (response : List ScoredPoint) :
    ∀ (idxs : List Nat), (∀ i ∈ idxs, i < response.length) →
      ∃ ms : List ScoredPoint,
        idxs.mapM (fun idx => response.get? idx) = some ms
        ∧ ms.length = idxs.length
        ∧ ∀ j i, idxs.get? j = some i → ms.get? j = response.get? i := by
  intro idxs
  induction idxs with
  | nil =>
    intro _
    refine ⟨[], rfl, rfl, ?_⟩
    intro j i hj
    simp at hj
  | cons a l ih =>
    intro hvalid
    obtain ⟨ms, hms, hlen, hidx⟩ := ih fun i hi => hvalid i (List.mem_cons_of_mem a hi)
    have ha : a < response.length := hvalid a (List.mem_cons_self a l)
    obtain ⟨pa, hpa⟩ : ∃ pa, response.get? a = some pa :=
      ⟨response.get ⟨a, ha⟩, List.get?_eq_get ha⟩
    refine ⟨pa :: ms, ?_, by simp [hlen], ?_⟩
    · simp only [List.mapM_cons, hpa, hms, Option.pure_def, Option.bind_eq_bind,
        Option.some_bind]
    · intro j i hj
      cases j with
      | zero =>
        simp only [List.get?] at hj ⊢
        rw [← hpa, Option.some_inj.mp hj]
      | succ n =>
        simp only [List.get?] at hj ⊢
        exact hidx n i hj

/-- C9: with a non-empty query, `maxMarginalRelevanceSearch` issues
(after the collection listing) one search call for the top
`fetchK ?? 20` neighbours with vectors included, hands the query
embedding, the fetched vectors, the lambda and `k` to the external
diversity-selection function, and returns exactly the documents at the
indices that function chose, in that function's order. -/
theorem mmr_search_order (store : QdrantVectorStore)
    (mmr : Vec → List Vec → Option JsNum → Nat → List Nat)
    (query : String) (options : MMROptions) (st : ClientState)
    (response : List ScoredPoint)
    (hq : query ≠ "")
    (hvalid : ∀ i ∈ mmr (store.embedQuery query) (response.map ScoredPoint.vector)
        options.lambda options.k, i < response.length) :
    (store.maxMarginalRelevanceSearch mmr query options st response).2.2 =
        (store.ensureCollection st).2 ++
          [RemoteCall.search store.collectionName (store.embedQuery query)
            (some (options.fetchK.getD 20)) options.filter
            [store.metadataPayloadKey, store.contentPayloadKey] true]
    ∧ (store.maxMarginalRelevanceSearch mmr query options st response).2.1 =
        (store.ensureCollection st).1
    ∧ ∃ docs, (store.maxMarginalRelevanceSearch mmr query options st response).1 =
          Except.ok docs
        ∧ docs.length = (mmr (store.embedQuery query) (response.map ScoredPoint.vector)
            options.lambda options.k).length
        ∧ ∀ j i, (mmr (store.embedQuery query) (response.map ScoredPoint.vector)
              options.lambda options.k).get? j = some i →
            docs.get? j = (response.get? i).map store.toRetrievedDoc := by
  obtain ⟨ms, hms, hlen, hidx⟩ := mapM_get?_of_valid response
    (mmr (store.embedQuery query) (response.map ScoredPoint.vector)
      options.lambda options.k) hvalid
  refine ⟨?_, ?_, ms.map store.toRetrievedDoc, ?_, by simp [hlen], ?_⟩
  · simp only [QdrantVectorStore.maxMarginalRelevanceSearch]
    rw [if_neg hq]
  · simp only [QdrantVectorStore.maxMarginalRelevanceSearch]
    rw [if_neg hq]
  · simp only [QdrantVectorStore.maxMarginalRelevanceSearch]
    rw [if_neg hq]
    simp only [hms]
  · intro j i hj
    rw [List.get?_map, hidx j i hj]

theorem mmr_search_order_witness :
    (("q" : String) ≠ "")
    ∧ (∀ i ∈ [1, 0], i < ([⟨"id0", [], [("content", PayloadValue.str "a")], 0⟩,
        ⟨"id1", [], [("content", PayloadValue.str "b")], 1⟩] : List ScoredPoint).length)
    ∧ ((store₀.maxMarginalRelevanceSearch (fun _ _ _ _ => [1, 0]) "q"
          ⟨2, none, none, none⟩ ⟨["documents"]⟩
          [⟨"id0", [], [("content", PayloadValue.str "a")], 0⟩,
           ⟨"id1", [], [("content", PayloadValue.str "b")], 1⟩]).2.2 =
        [RemoteCall.getCollections,
         RemoteCall.search "documents" [] (some 20) none ["metadata", "content"] true]
      ∧ (store₀.maxMarginalRelevanceSearch (fun _ _ _ _ => [1, 0]) "q"
          ⟨2, none, none, none⟩ ⟨["documents"]⟩
          [⟨"id0", [], [("content", PayloadValue.str "a")], 0⟩,
           ⟨"id1", [], [("content", PayloadValue.str "b")], 1⟩]).2.1 = ⟨["documents"]⟩
      ∧ ∃ docs, (store₀.maxMarginalRelevanceSearch (fun _ _ _ _ => [1, 0]) "q"
            ⟨2, none, none, none⟩ ⟨["documents"]⟩
            [⟨"id0", [], [("content", PayloadValue.str "a")], 0⟩,
             ⟨"id1", [], [("content", PayloadValue.str "b")], 1⟩]).1 = Except.ok docs
          ∧ docs.length = ([1, 0] : List Nat).length
          ∧ ∀ j i, ([1, 0] : List Nat).get? j = some i →
              docs.get? j =
                (([⟨"id0", [], [("content", PayloadValue.str "a")], 0⟩,
                   ⟨"id1", [], [("content", PayloadValue.str "b")], 1⟩] :
                    List ScoredPoint).get? i).map store₀.toRetrievedDoc) :=
  ⟨by decide, by decide,
   mmr_search_order store₀ (fun _ _ _ _ => [1, 0]) "q"
     ⟨2, none, none, none⟩ ⟨["documents"]⟩
     [⟨"id0", [], [("content", PayloadValue.str "a")], 0⟩,
      ⟨"id1", [], [("content", PayloadValue.str "b")], 1⟩]
     (by decide) (by decide)⟩
